import Mathlib

/-!
Shallow embedding of the pebble-connector agent (src/query_validator.py,
src/agent.py, src/config.py, src/main.py) and proofs about it.
-/

namespace Pebble

/-! ## Query validator (src/query_validator.py) -/

/-- Python `str.strip()` whitespace set (ASCII part). -/
def pyIsSpace (c : Char) : Bool :=
  c = ' ' || c = '\t' || c = '\n' || c = '\r' || c = '\x0b' || c = '\x0c'

/-- Python `str.strip()`: drop leading and trailing whitespace. -/
def pyStrip (s : List Char) : List Char :=
  ((s.dropWhile pyIsSpace).reverse.dropWhile pyIsSpace).reverse

/-- The regex substitution `re.sub(r'--.*$', '', sql, flags=re.MULTILINE)` as
a character automaton: when `inComment` is set we are between a `--` and the
next newline, and every character up to (but not including) that newline is
removed. -/
def stripLineAux : Bool → List Char → List Char
  | true, [] => []
  | true, c :: rest =>
    if c = '\n' then c :: stripLineAux false rest else stripLineAux true rest
  | false, [] => []
  | false, '-' :: '-' :: rest => stripLineAux true rest
  | false, c :: rest => c :: stripLineAux false rest

/-- `re.sub(r'--.*$', '', sql, flags=re.MULTILINE)`: remove each `--` and the
rest of its line (the newline itself is kept). -/
def stripLineComments (l : List Char) : List Char :=
  stripLineAux false l

/-- Whether an adjacent `*/` pair occurs somewhere in the list: whether the
non-greedy `/\*.*?\*/` can close. -/
def hasClose : List Char → Bool
  | [] => false
  | '*' :: '/' :: _ => true
  | _ :: rest => hasClose rest

/-- The regex substitution `re.sub(r'/\*.*?\*/', '', cleaned, flags=re.DOTALL)`
as a character automaton: inside a comment, characters are removed up to and
including the first `*/`; a `/*` with no later `*/` anywhere does not match,
and the scan keeps the rest verbatim (no match can start inside it). -/
def stripBlockAux : Bool → List Char → List Char
  | true, [] => []
  | true, '*' :: '/' :: rest => stripBlockAux false rest
  | true, _ :: rest => stripBlockAux true rest
  | false, [] => []
  | false, '/' :: '*' :: rest =>
    if hasClose rest then stripBlockAux true rest else '/' :: '*' :: rest
  | false, c :: rest => c :: stripBlockAux false rest

/-- Remove each `/*` together with everything up to and including the first
following `*/`; an unclosed `/*` is left untouched. -/
def stripBlockComments (l : List Char) : List Char :=
  stripBlockAux false l

/-- A regex word character (`\w` restricted to ASCII): letter, digit or underscore. -/
def isWordChar (c : Char) : Bool :=
  c.isAlphanum || c = '_'

/-- A `\b` word boundary holds against the neighbouring character (none at the ends). -/
def boundaryOk : Option Char → Bool
  | none => true
  | some c => ! isWordChar c

/-- The keyword occurs at the head of `s` and the character right after it (if
any) is not a word character. -/
def wordAt (kw s : List Char) : Bool :=
  kw.isPrefixOf s && boundaryOk (s.drop kw.length).head?

/-- Scan `s` position by position; `prev` is the character before the current
position. -/
def containsWordFrom (kw : List Char) (prev : Option Char) : List Char → Bool
  | [] => false
  | c :: rest => (boundaryOk prev && wordAt kw (c :: rest)) || containsWordFrom kw (some c) rest

/-- `re.search(rf'\b{kw}\b', s)` is not None: the keyword occurs somewhere in
`s` as a whole word. -/
def containsWord (kw s : List Char) : Bool :=
  containsWordFrom kw none s

/-- The denylist from src/query_validator.py, in source order. -/
def WRITE_KEYWORDS : List String :=
  ["INSERT", "UPDATE", "DELETE", "DROP", "CREATE", "ALTER", "TRUNCATE",
   "GRANT", "REVOKE", "COPY", "EXECUTE", "CALL"]

/-- The `cleaned` local of `validate_query`: strip line comments, then block
comments, then surrounding whitespace. -/
def cleanedOf (sql : String) : List Char :=
  pyStrip (stripBlockComments (stripLineComments sql.data))

/-- The `upper` local of `validate_query`: `cleaned.upper()`. -/
def upperOf (sql : String) : List Char :=
  (cleanedOf sql).map Char.toUpper

/-- src/query_validator.py `validate_query`: returns `(is_valid, error_message)`. -/
def validate_query (sql : String) : Bool × String :=
  if (cleanedOf sql).isEmpty then
    (false, "Empty query")
  else if ! ("SELECT".data.isPrefixOf (upperOf sql) || "WITH".data.isPrefixOf (upperOf sql)) then
    (false, "Only SELECT queries are allowed")
  else
    match WRITE_KEYWORDS.find? (fun kw => containsWord kw.data (upperOf sql)) with
    | some kw => (false, "Query contains forbidden keyword: " ++ kw)
    | none => (true, "")

/-! ## Result bounding and execution (src/agent.py `PebbleAgent.execute_query`) -/

/-- A database-native value as seen by `_serialize_value`. Floats are omitted
from the embedding; `dbOther` carries `str(value)` for any non-scalar type. -/
inductive DBValue where
  | dbNull
  | dbInt (n : Int)
  | dbStr (s : String)
  | dbBool (b : Bool)
  | dbOther (s : String)
deriving DecidableEq, Repr

/-- A JSON-compatible value produced by `_serialize_value`. -/
inductive JValue where
  | jnull
  | jint (n : Int)
  | jstr (s : String)
  | jbool (b : Bool)
deriving DecidableEq, Repr

/-- src/agent.py `PebbleAgent._serialize_value`: None stays null, scalars pass
through, anything else becomes its string representation. -/
def serialize_value : DBValue → JValue
  | .dbNull => .jnull
  | .dbInt n => .jint n
  | .dbStr s => .jstr s
  | .dbBool b => .jbool b
  | .dbOther s => .jstr s

/-- UTF-8-independent byte length of one character inside a `json.dumps`
string literal (default `ensure_ascii=True`). -/
def escLen (c : Char) : Nat :=
  if c = '"' ∨ c = '\\' then 2
  else if c = '\x08' ∨ c = '\t' ∨ c = '\n' ∨ c = '\x0c' ∨ c = '\r' then 2
  else if c.val < 0x20 then 6
  else if c.val < 0x7f then 1
  else if c.val < 0x10000 then 6
  else 12

/-- Byte length of the `json.dumps` encoding of one serialized value. -/
def jsonBytes : JValue → Nat
  | .jnull => 4
  | .jint n => (toString n).length
  | .jstr s => 2 + (s.data.map escLen).sum
  | .jbool true => 4
  | .jbool false => 5

/-- `len(json.dumps(row_data).encode())`: a JSON array with the default
`", "` separator between elements. -/
def rowBytes (row : List JValue) : Nat :=
  2 + match row with
      | [] => 0
      | v :: vs => jsonBytes v + (vs.map (fun w => 2 + jsonBytes w)).sum

/-- An asyncpg record: an ordered mapping from column name to value. -/
def PyRow := List (String × DBValue)

/-- `row[col]`: dictionary lookup. Rows of one query result all share the
column set, so for well-formed inputs the `dbNull` default never fires. -/
def rowGet (row : PyRow) (col : String) : DBValue :=
  (List.lookup col row).getD .dbNull

/-- `[self._serialize_value(row[col]) for col in columns]`. -/
def serializeRow (columns : List String) (row : PyRow) : List JValue :=
  columns.map (fun col => serialize_value (rowGet row col))

/-- The row-accumulation loop of `execute_query` (src/agent.py lines 95-108).
`count` is `len(result_rows)` and `total` is `total_bytes` at loop entry;
returns the rows appended from here on, the final `total_bytes`, and
`truncated`. -/
def boundLoop (maxRows maxBytes : Nat) (columns : List String) :
    List PyRow → Nat → Nat → List (List JValue) × Nat × Bool
  | [], _, total => ([], total, false)
  | row :: rest, count, total =>
    if maxRows ≤ count then ([], total, true)
    else if maxBytes < total + rowBytes (serializeRow columns row) then ([], total, true)
    else
      (serializeRow columns row ::
         (boundLoop maxRows maxBytes columns rest (count + 1)
           (total + rowBytes (serializeRow columns row))).1,
       (boundLoop maxRows maxBytes columns rest (count + 1)
           (total + rowBytes (serializeRow columns row))).2)

/-- The result dictionary built by `execute_query`. -/
structure ExecutionResult where
  columns : List String
  rows : List (List JValue)
  row_count : Nat
  bytes : Nat
  truncated : Bool
deriving DecidableEq, Repr

/-- The result-construction part of `execute_query` (src/agent.py lines
87-116): empty fetch short-circuits, otherwise columns come from the first
row's keys and the bounding loop runs over all fetched rows. -/
def build_result (maxRows maxBytes : Nat) (rows : List PyRow) : ExecutionResult :=
  match rows with
  | [] => { columns := [], rows := [], row_count := 0, bytes := 0, truncated := false }
  | r0 :: _ =>
    let columns := (r0 : List (String × DBValue)).map Prod.fst
    let out := boundLoop maxRows maxBytes columns rows 0 0
    { columns := columns, rows := out.1, row_count := out.1.length,
      bytes := out.2.1, truncated := out.2.2 }

/-- A job as delivered by the backend poll endpoint. -/
structure Job where
  id : String
  sql : String
  database_name : String
  timeout_seconds : Nat
deriving DecidableEq, Repr

/-- Observable side effects of `execute_query` on the database session. -/
inductive ExecStep where
  | acquireConnection
  | setStatementTimeout (ms : Nat)
  | fetchStatement (sql : String)
  | closeConnection
deriving DecidableEq, Repr

/-- Outcome of `execute_query`: a raised validation error, or a result. -/
inductive ExecOutcome where
  | validationError (msg : String)
  | result (r : ExecutionResult)
deriving DecidableEq, Repr

/-- src/agent.py `PebbleAgent.execute_query`, with the database modelled as a
function from the SQL text to the fetched rows and the session interactions
recorded as a trace. The `database_name` parameter mirrors the source's: it is
accepted and never read. -/
def execute_query (maxRows maxBytes : Nat) (database_name : String) (sql : String)
    (timeout : Nat) (db : String → List PyRow) : List ExecStep × ExecOutcome :=
  let v := validate_query sql
  if v.1 = false then
    ([], .validationError ("Query validation failed: " ++ v.2))
  else
    ([.acquireConnection, .setStatementTimeout (timeout * 1000), .fetchStatement sql,
      .closeConnection],
     .result (build_result maxRows maxBytes (db sql)))

/-! ### Invariants of the bounding loop -/

theorem boundLoop_count_le (maxRows maxBytes : Nat) (cols : List String) :
    ∀ (l : List PyRow) (count total : Nat), count ≤ maxRows →
      count + (boundLoop maxRows maxBytes cols l count total).1.length ≤ maxRows := by
  intro l
  induction l with
  | nil => intro count total h; simpa [boundLoop] using h
  | cons row rest ih =>
    intro count total h
    rw [boundLoop]
    split
    · simpa using h
    · split
      · simpa using h
      · rename_i hc _
        have := ih (count + 1) (total + rowBytes (serializeRow cols row)) (by omega)
        simp only [List.length_cons]
        omega

theorem boundLoop_bytes_le (maxRows maxBytes : Nat) (cols : List String) :
    ∀ (l : List PyRow) (count total : Nat), total ≤ maxBytes →
      (boundLoop maxRows maxBytes cols l count total).2.1 ≤ maxBytes := by
  intro l
  induction l with
  | nil => intro count total h; simpa [boundLoop] using h
  | cons row rest ih =>
    intro count total h
    rw [boundLoop]
    split
    · simpa using h
    · split
      · simpa using h
      · rename_i _ hb
        exact ih (count + 1) (total + rowBytes (serializeRow cols row)) (by omega)

theorem boundLoop_bytes_sum (maxRows maxBytes : Nat) (cols : List String) :
    ∀ (l : List PyRow) (count total : Nat),
      (boundLoop maxRows maxBytes cols l count total).2.1 =
        total + ((boundLoop maxRows maxBytes cols l count total).1.map rowBytes).sum := by
  intro l
  induction l with
  | nil => intro count total; simp [boundLoop]
  | cons row rest ih =>
    intro count total
    rw [boundLoop]
    split
    · simp
    · split
      · simp
      · have := ih (count + 1) (total + rowBytes (serializeRow cols row))
        simp only [List.map_cons, List.sum_cons]
        omega

theorem boundLoop_take (maxRows maxBytes : Nat) (cols : List String) :
    ∀ (l : List PyRow) (count total : Nat),
      (boundLoop maxRows maxBytes cols l count total).1 =
        (l.map (serializeRow cols)).take
          (boundLoop maxRows maxBytes cols l count total).1.length := by
  intro l
  induction l with
  | nil => intro count total; simp [boundLoop]
  | cons row rest ih =>
    intro count total
    rw [boundLoop]
    split
    · simp
    · split
      · simp
      · have := ih (count + 1) (total + rowBytes (serializeRow cols row))
        simp only [List.map_cons, List.length_cons, List.take_succ_cons, List.cons.injEq,
          true_and]
        exact this

theorem boundLoop_trunc_iff (maxRows maxBytes : Nat) (cols : List String) :
    ∀ (l : List PyRow) (count total : Nat),
      ((boundLoop maxRows maxBytes cols l count total).2.2 = true ↔
        (boundLoop maxRows maxBytes cols l count total).1.length < l.length) := by
  intro l
  induction l with
  | nil => intro count total; simp [boundLoop]
  | cons row rest ih =>
    intro count total
    rw [boundLoop]
    split
    · simp
    · split
      · simp
      · have := ih (count + 1) (total + rowBytes (serializeRow cols row))
        simp only [List.length_cons]
        constructor
        · intro h; exact Nat.succ_lt_succ (this.mp h)
        · intro h; exact this.mpr (Nat.lt_of_succ_lt_succ h)

theorem boundLoop_stop (maxRows maxBytes : Nat) (cols : List String) :
    ∀ (l : List PyRow) (count total : Nat),
      (boundLoop maxRows maxBytes cols l count total).2.2 = true →
        (maxRows ≤ count + (boundLoop maxRows maxBytes cols l count total).1.length) ∨
        (∃ row rest2, l.drop (boundLoop maxRows maxBytes cols l count total).1.length
            = row :: rest2 ∧
          maxBytes < (boundLoop maxRows maxBytes cols l count total).2.1 +
            rowBytes (serializeRow cols row)) := by
  intro l
  induction l with
  | nil => intro count total h; simp [boundLoop] at h
  | cons row rest ih =>
    intro count total h
    by_cases hr : maxRows ≤ count
    · simp only [boundLoop, if_pos hr] at h ⊢
      simp only [List.length_nil, Nat.add_zero]
      exact Or.inl hr
    · by_cases hb : maxBytes < total + rowBytes (serializeRow cols row)
      · simp only [boundLoop, if_neg hr, if_pos hb] at h ⊢
        refine Or.inr ⟨row, rest, ?_, ?_⟩
        · simp
        · simpa using hb
      · simp only [boundLoop, if_neg hr, if_neg hb] at h ⊢
        have := ih (count + 1) (total + rowBytes (serializeRow cols row)) (by simpa using h)
        simp only [List.length_cons, List.drop_succ_cons]
        rcases this with h1 | ⟨row2, rest2, hdrop, hlt⟩
        · left; omega
        · right; exact ⟨row2, rest2, hdrop, by simpa using hlt⟩

/-! ## Backend client (src/agent.py `poll_for_job`, `complete_job`) -/

/-- What the poll HTTP call produces: a server response with a status and an
optional job payload, or a network failure (`aiohttp.ClientError`). -/
inductive PollResponse where
  | http (status : Nat) (job : Option Job)
  | networkFailure (msg : String)
deriving DecidableEq, Repr

/-- src/agent.py `PebbleAgent.poll_for_job`, as a function from the observed
response to what the call does: `Except.error` would model an uncaught
exception, `Except.ok` a normal return. -/
def poll_for_job : PollResponse → Except String (Option Job)
  | .http status job =>
    if status = 200 then .ok job
    else if status = 401 then .ok none
    else .ok none
  | .networkFailure _ => .ok none

/-- One invocation of `complete_job` with its payload-bearing arguments
(src/agent.py lines 180 and 184). -/
inductive Completion where
  | withResults (job_id : String) (r : ExecutionResult) (execution_time_ms : Nat)
  | withError (job_id : String) (msg : String) (execution_time_ms : Nat)
deriving DecidableEq, Repr

/-! ## Worker loop (src/agent.py `worker`) -/

/-- Outcome of the `execute_query` call inside the worker's inner try. -/
inductive ExecTryOutcome where
  | ok (r : ExecutionResult)
  | exn (msg : String)
deriving DecidableEq, Repr

/-- What one iteration of the `while True` loop encounters: an exception
raised by the cycle outside job handling, a poll that returned no job, or a
claimed job together with its execution outcome and measured time. -/
inductive CycleInput where
  | cycleRaises (msg : String)
  | noJob
  | gotJob (j : Job) (time_ms : Nat) (outcome : ExecTryOutcome)
deriving DecidableEq, Repr

/-- Observable effects of one loop iteration: the `complete_job` calls made,
the sleep performed (if any), and the value of `consecutive_errors` at the end
of the iteration. -/
structure CycleResult where
  completions : List Completion
  sleepSeconds : Option Nat
  consecutive_errors : Nat
deriving DecidableEq, Repr

/-- One iteration of the worker loop (src/agent.py lines 165-195), given the
value of `consecutive_errors` on entry. -/
def worker_cycle (pollInterval : Nat) (consecutive_errors : Nat) : CycleInput → CycleResult
  | .cycleRaises _ =>
    { completions := [],
      sleepSeconds := some (min (2 ^ (consecutive_errors + 1)) 60),
      consecutive_errors := consecutive_errors + 1 }
  | .noJob =>
    { completions := [], sleepSeconds := some pollInterval, consecutive_errors := 0 }
  | .gotJob j t (.ok r) =>
    { completions := [.withResults j.id r t], sleepSeconds := none, consecutive_errors := 0 }
  | .gotJob j t (.exn m) =>
    { completions := [.withError j.id m t], sleepSeconds := none, consecutive_errors := 0 }

/-- The worker loop run over a finite schedule of cycle inputs, threading
`consecutive_errors` from one iteration into the next. -/
def worker_run (pollInterval : Nat) (consecutive_errors : Nat) :
    List CycleInput → List CycleResult
  | [] => []
  | i :: rest =>
    worker_cycle pollInterval consecutive_errors i ::
      worker_run pollInterval (worker_cycle pollInterval consecutive_errors i).consecutive_errors rest

/-! ## Configuration and startup (src/config.py, src/main.py) -/

/-- src/config.py `Config`: every environment-derived setting. -/
structure Config where
  PEBBLE_API_URL : String
  PEBBLE_AGENT_API_KEY : String
  PEBBLE_COMPANY_ID : String
  GCP_PROJECT_ID : String
  GCP_REGION : String
  GCP_INSTANCE_NAME : String
  DB_NAME : String
  DB_IAM_USER : String
  IP_TYPE : String
  NUM_WORKERS : Nat
  POLL_INTERVAL : Nat
  MAX_RESULT_ROWS : Nat
  MAX_RESULT_BYTES : Nat
  HTTP_TIMEOUT : Nat
  CONNECTION_TIMEOUT : Nat
deriving DecidableEq, Repr

/-- src/config.py `Config.instance_connection_name`. -/
def instance_connection_name (c : Config) : String :=
  c.GCP_PROJECT_ID ++ ":" ++ c.GCP_REGION ++ ":" ++ c.GCP_INSTANCE_NAME

/-- The arguments `get_connection` passes to `connector.connect_async`
(src/agent.py lines 36-43). -/
structure ConnectArgs where
  instance_name : String
  driver : String
  user : String
  db : String
  enable_iam_auth : Bool
  ip_type : String
deriving DecidableEq, Repr

/-- src/agent.py `PebbleAgent.get_connection`: the connection request it
issues. It reads only the process configuration — nothing from the job. -/
def get_connection_args (c : Config) : ConnectArgs :=
  { instance_name := instance_connection_name c,
    driver := "asyncpg",
    user := c.DB_IAM_USER,
    db := c.DB_NAME,
    enable_iam_auth := true,
    ip_type := c.IP_TYPE }

/-- The `missing` list built by `main` (src/main.py lines 20-33), in source
order. `PEBBLE_API_URL` is notably absent from the checks. -/
def missingRequired (c : Config) : List String :=
  (if c.PEBBLE_AGENT_API_KEY = "" then ["PEBBLE_AGENT_API_KEY"] else []) ++
  (if c.PEBBLE_COMPANY_ID = "" then ["PEBBLE_COMPANY_ID"] else []) ++
  (if c.GCP_PROJECT_ID = "" then ["GCP_PROJECT_ID"] else []) ++
  (if c.GCP_REGION = "" then ["GCP_REGION"] else []) ++
  (if c.GCP_INSTANCE_NAME = "" then ["GCP_INSTANCE_NAME"] else []) ++
  (if c.DB_NAME = "" then ["DB_NAME"] else []) ++
  (if c.DB_IAM_USER = "" then ["DB_IAM_USER"] else [])

/-- What `main` does after loading configuration: exit(1) listing the missing
variables, or proceed to run the workers. -/
inductive StartupOutcome where
  | exitWith (code : Nat) (missing : List String)
  | runWorkers (numWorkers : Nat)
deriving DecidableEq, Repr

/-- src/main.py `main` (lines 17-38): the startup gate. -/
def main_startup (c : Config) : StartupOutcome :=
  if missingRequired c ≠ [] then .exitWith 1 (missingRequired c)
  else .runWorkers c.NUM_WORKERS

/-! ## Auxiliary facts -/

theorem containsWord_ne_nil {kw s : List Char} (h : containsWord kw s = true) : s ≠ [] := by
  intro hs
  subst hs
  simp [containsWord, containsWordFrom] at h

theorem cleanedOf_not_empty {sql : String} (h : upperOf sql ≠ []) :
    (cleanedOf sql).isEmpty = false := by
  unfold upperOf at h
  cases hc : cleanedOf sql with
  | nil => rw [hc] at h; simp at h
  | cons a l => simp

theorem upperOf_ne_nil_of_starts {sql : String}
    (h : ("SELECT".data.isPrefixOf (upperOf sql) || "WITH".data.isPrefixOf (upperOf sql)) = true) :
    upperOf sql ≠ [] := by
  intro he
  rw [he] at h
  exact absurd h (by decide)

theorem ite_singleton_eq_nil {α : Type} {y : α} {c : Prop} [Decidable c] :
    ((if c then [y] else ([] : List α)) = []) ↔ ¬ c := by
  split <;> simp_all

theorem mem_ite_singleton {α : Type} {x y : α} {c : Prop} [Decidable c] :
    (x ∈ if c then [y] else ([] : List α)) ↔ (c ∧ x = y) := by
  split <;> simp_all

theorem worker_run_length (p : Nat) (c : Nat) (inputs : List CycleInput) :
    (worker_run p c inputs).length = inputs.length := by
  induction inputs generalizing c with
  | nil => rfl
  | cons i rest ih => simp [worker_run, ih]

theorem worker_run_replicate_raises (p : Nat) (m : String) :
    ∀ (n c : Nat), worker_run p c (List.replicate n (CycleInput.cycleRaises m)) =
      (List.range n).map (fun i =>
        { completions := [], sleepSeconds := some (min (2 ^ (c + i + 1)) 60),
          consecutive_errors := c + i + 1 }) := by
  intro n
  induction n with
  | zero => intro c; simp [worker_run]
  | succ k ih =>
    intro c
    rw [List.replicate_succ, worker_run, ih]
    rw [List.range_succ_eq_map, List.map_cons, List.map_map]
    refine List.cons_eq_cons.mpr ⟨?_, ?_⟩
    · simp [worker_cycle]
    · apply List.map_congr_left
      intro i hi
      have h1 : (worker_cycle p c (CycleInput.cycleRaises m)).consecutive_errors + i + 1
          = c + (i + 1) + 1 := by
        simp [worker_cycle]
        omega
      simp only [Function.comp, worker_cycle]
      rw [show c + 1 + i + 1 = c + (i + 1) + 1 by omega]

/-! ## The claims -/

/-- C1: an ExecutionResult is never produced for a query that fails
validation: when `validate_query sql` is invalid, `execute_query` raises the
validation error before acquiring any database session or running any
statement (the session trace is empty) and returns no result structure. -/
theorem C1_validation_is_a_gate (maxRows maxBytes : Nat) (database_name sql : String)
    (timeout : Nat) (db : String → List PyRow)
    (h : (validate_query sql).1 = false) :
    (execute_query maxRows maxBytes database_name sql timeout db).1 = [] ∧
    (execute_query maxRows maxBytes database_name sql timeout db).2 =
      .validationError ("Query validation failed: " ++ (validate_query sql).2) := by
  unfold execute_query
  simp [h]

theorem C1_validation_is_a_gate_witness :
    (execute_query 1000 262144 "proddb" "DELETE FROM users" 60 (fun _ => [])).1 = [] ∧
    (execute_query 1000 262144 "proddb" "DELETE FROM users" 60 (fun _ => [])).2 =
      .validationError ("Query validation failed: " ++ (validate_query "DELETE FROM users").2) :=
  C1_validation_is_a_gate 1000 262144 "proddb" "DELETE FROM users" 60 (fun _ => []) (by decide)

/-- C2: result bounding never exceeds the caps: `row_count ≤ max_rows` and
`byte_size ≤ max_bytes`; the emitted rows are the serialized input rows taken
in order as a prefix, the reported byte size counts exactly the emitted rows,
and when a row is dropped (truncation) it is because it would violate the row
cap or the byte cap. -/
theorem C2_result_bounding_caps (maxRows maxBytes : Nat) (rows : List PyRow) :
    (build_result maxRows maxBytes rows).row_count ≤ maxRows ∧
    (build_result maxRows maxBytes rows).bytes ≤ maxBytes ∧
    (build_result maxRows maxBytes rows).rows =
      (rows.map (serializeRow (build_result maxRows maxBytes rows).columns)).take
        (build_result maxRows maxBytes rows).row_count ∧
    (build_result maxRows maxBytes rows).bytes =
      ((build_result maxRows maxBytes rows).rows.map rowBytes).sum ∧
    ((build_result maxRows maxBytes rows).truncated = true →
      maxRows ≤ (build_result maxRows maxBytes rows).row_count ∨
      ∃ row rest2,
        rows.drop (build_result maxRows maxBytes rows).row_count = row :: rest2 ∧
        maxBytes < (build_result maxRows maxBytes rows).bytes +
          rowBytes (serializeRow (build_result maxRows maxBytes rows).columns row)) := by
  cases rows with
  | nil => simp [build_result]
  | cons r0 rest =>
    simp only [build_result]
    refine ⟨?_, ?_, ?_, ?_, ?_⟩
    · have := boundLoop_count_le maxRows maxBytes (r0.map Prod.fst) (r0 :: rest) 0 0
        (Nat.zero_le _)
      simpa using this
    · exact boundLoop_bytes_le maxRows maxBytes (r0.map Prod.fst) (r0 :: rest) 0 0
        (Nat.zero_le _)
    · exact boundLoop_take maxRows maxBytes (r0.map Prod.fst) (r0 :: rest) 0 0
    · have := boundLoop_bytes_sum maxRows maxBytes (r0.map Prod.fst) (r0 :: rest) 0 0
      simpa using this
    · intro ht
      have := boundLoop_stop maxRows maxBytes (r0.map Prod.fst) (r0 :: rest) 0 0 ht
      simpa using this

/-- C5: the truncated flag is set iff the emitted rows are a strict prefix of
the input rows (some input row was dropped); the emitted rows are indeed the
serialized prefix of that length, and an empty input yields the empty result
with `truncated = false`. -/
theorem C5_truncation_flag (maxRows maxBytes : Nat) (rows : List PyRow) :
    ((build_result maxRows maxBytes rows).truncated = true ↔
      (build_result maxRows maxBytes rows).row_count < rows.length) ∧
    (build_result maxRows maxBytes rows).rows =
      (rows.map (serializeRow (build_result maxRows maxBytes rows).columns)).take
        (build_result maxRows maxBytes rows).row_count ∧
    build_result maxRows maxBytes ([] : List PyRow) =
      { columns := [], rows := [], row_count := 0, bytes := 0, truncated := false } := by
  cases rows with
  | nil => refine ⟨?_, ?_, rfl⟩ <;> simp [build_result]
  | cons r0 rest =>
    refine ⟨?_, ?_, rfl⟩
    · simpa only [build_result] using
        boundLoop_trunc_iff maxRows maxBytes (r0.map Prod.fst) (r0 :: rest) 0 0
    · simpa only [build_result] using
        boundLoop_take maxRows maxBytes (r0.map Prod.fst) (r0 :: rest) 0 0

/-- C3 counterexample: for the input `"DELETE FROM users"` validation does
fail, but the reason is "Only SELECT queries are allowed" — the keyword DELETE
is not named, contradicting the claim (and spec scenario 2). -/
theorem C3_counterexample :
    validate_query "DELETE FROM users" = (false, "Only SELECT queries are allowed") ∧
    (validate_query "DELETE FROM users").2 ≠ "Query contains forbidden keyword: DELETE" := by
  constructor
  · decide
  · decide

/-- C3 amended: any SQL string containing a denylisted keyword as a whole word
outside stripped comments is rejected; when the cleaned text begins with
SELECT or WITH, the reason names the first keyword in denylist order that
occurs (the keyword `kw0` such that the denylist splits as
`pre ++ kw0 :: post` with no keyword of `pre` occurring); when the cleaned
text does not begin with SELECT/WITH, the reason is always
"Only SELECT queries are allowed" — in particular `"DELETE FROM users"` fails
without DELETE being named. -/
theorem C3_keyword_rejection (sql kw : String)
    (hmem : kw ∈ WRITE_KEYWORDS)
    (hkw : containsWord kw.data (upperOf sql) = true) :
    (validate_query sql).1 = false ∧
    (("SELECT".data.isPrefixOf (upperOf sql) || "WITH".data.isPrefixOf (upperOf sql)) = true →
      ∃ kw0 pre post, WRITE_KEYWORDS = pre ++ kw0 :: post ∧
        containsWord kw0.data (upperOf sql) = true ∧
        (∀ k ∈ pre, containsWord k.data (upperOf sql) = false) ∧
        (validate_query sql).2 = "Query contains forbidden keyword: " ++ kw0) ∧
    (("SELECT".data.isPrefixOf (upperOf sql) || "WITH".data.isPrefixOf (upperOf sql)) = false →
      validate_query sql = (false, "Only SELECT queries are allowed")) := by
  have hne : upperOf sql ≠ [] := containsWord_ne_nil hkw
  have hce : (cleanedOf sql).isEmpty = false := cleanedOf_not_empty hne
  by_cases hs : ("SELECT".data.isPrefixOf (upperOf sql) || "WITH".data.isPrefixOf (upperOf sql)) = true
  · have hsome : (WRITE_KEYWORDS.find? (fun k => containsWord k.data (upperOf sql))).isSome := by
      rw [List.find?_isSome]
      exact ⟨kw, hmem, hkw⟩
    obtain ⟨kw0, hfind⟩ := Option.isSome_iff_exists.mp hsome
    have hval : validate_query sql = (false, "Query contains forbidden keyword: " ++ kw0) := by
      unfold validate_query
      rw [hce, hs]
      simp [hfind]
    obtain ⟨hp0, pre, post, hsplit, hpre⟩ := List.find?_eq_some.mp hfind
    have hpre0 : ∀ k ∈ pre, containsWord k.data (upperOf sql) = false := by
      intro k hk
      have := hpre k hk
      simpa using this
    refine ⟨by rw [hval],
      fun _ => ⟨kw0, pre, post, hsplit, by simpa using hp0, hpre0, by rw [hval]⟩,
      fun hfalse => ?_⟩
    rw [hs] at hfalse
    cases hfalse
  · have hval : validate_query sql = (false, "Only SELECT queries are allowed") := by
      unfold validate_query
      rw [hce]
      simp only [Bool.not_eq_true] at hs
      rw [hs]
      simp
    exact ⟨by rw [hval], fun h => absurd h hs, fun _ => hval⟩

theorem C3_keyword_rejection_witness :
    (validate_query "SELECT DELETE").1 = false :=
  (C3_keyword_rejection "SELECT DELETE" "DELETE" (by decide) (by decide)).1

/-- C4: any SQL string whose comment-stripped, trimmed text begins
case-insensitively with SELECT or WITH and contains no denylisted keyword as a
whole word validates as `(true, "")`. -/
theorem C4_reads_are_valid (sql : String)
    (hstart : ("SELECT".data.isPrefixOf (upperOf sql) || "WITH".data.isPrefixOf (upperOf sql)) = true)
    (hnone : ∀ kw ∈ WRITE_KEYWORDS, containsWord kw.data (upperOf sql) = false) :
    validate_query sql = (true, "") := by
  have hne : upperOf sql ≠ [] := upperOf_ne_nil_of_starts hstart
  have hce : (cleanedOf sql).isEmpty = false := cleanedOf_not_empty hne
  have hfind : WRITE_KEYWORDS.find? (fun k => containsWord k.data (upperOf sql)) = none := by
    rw [List.find?_eq_none]
    intro k hk
    simp [hnone k hk]
  unfold validate_query
  rw [hce, hstart]
  simp [hfind]

theorem C4_reads_are_valid_witness :
    validate_query "SELECT 1" = (true, "") :=
  C4_reads_are_valid "SELECT 1" (by decide) (by decide)

/-- C6: a job claimed in a worker cycle is completed exactly once — one
`complete_job` call, carrying the result on success or the exception's message
on failure — and `consecutive_errors` is reset to zero either way. -/
theorem C6_exactly_once_completion (pollInterval errs : Nat) (j : Job) (t : Nat)
    (o : ExecTryOutcome) :
    (worker_cycle pollInterval errs (.gotJob j t o)).completions =
      [match o with
       | .ok r => Completion.withResults j.id r t
       | .exn m => Completion.withError j.id m t] ∧
    (worker_cycle pollInterval errs (.gotJob j t o)).consecutive_errors = 0 := by
  cases o <;> exact ⟨rfl, rfl⟩

/-- C7: starting from a clean state, the i-th of a run of consecutive
cycle-level exceptions sleeps `min(2^(i+1), 60)` seconds with the counter at
`i+1` (so 2s, 4s, 8s, ..., capped at 60s) and the loop produces a successor
state for every input (it never terminates); a no-job cycle sleeps the poll
interval and leaves the counter at zero. -/
theorem C7_backoff_discipline (pollInterval n : Nat) (m : String) (c : Nat)
    (inputs : List CycleInput) :
    worker_run pollInterval 0 (List.replicate n (CycleInput.cycleRaises m)) =
      (List.range n).map (fun i =>
        { completions := [], sleepSeconds := some (min (2 ^ (i + 1)) 60),
          consecutive_errors := i + 1 }) ∧
    worker_cycle pollInterval c CycleInput.noJob =
      { completions := [], sleepSeconds := some pollInterval, consecutive_errors := 0 } ∧
    (worker_run pollInterval c inputs).length = inputs.length := by
  refine ⟨?_, rfl, worker_run_length pollInterval c inputs⟩
  have := worker_run_replicate_raises pollInterval m n 0
  simpa using this

/-- C8: `poll_for_job` never raises: every response — 200 with or without a
job, 401, any other status, or a network failure — yields a normal return,
with the job payload exactly on HTTP 200 and `none` otherwise. -/
theorem C8_poll_never_raises (r : PollResponse) :
    (∃ j, poll_for_job r = .ok j) ∧
    (∀ s job, r = .http s job → s = 200 → poll_for_job r = .ok job) ∧
    (∀ s job, r = .http s job → s ≠ 200 → poll_for_job r = .ok none) ∧
    (∀ m, r = .networkFailure m → poll_for_job r = .ok none) := by
  refine ⟨?_, ?_, ?_, ?_⟩
  · cases r with
    | http s job =>
      by_cases hs : s = 200
      · exact ⟨job, by simp [poll_for_job, hs]⟩
      · exact ⟨none, by simp [poll_for_job, hs]⟩
    | networkFailure m => exact ⟨none, rfl⟩
  · rintro s job rfl rfl
    simp [poll_for_job]
  · rintro s job rfl hs
    by_cases h4 : s = 401 <;> simp [poll_for_job, hs, h4]
  · rintro m rfl
    rfl

/-- A concrete job payload. -/
def jobExample : Job :=
  { id := "j1", sql := "SELECT 1", database_name := "analytics", timeout_seconds := 60 }

theorem C8_poll_never_raises_witness :
    poll_for_job (.http 200 (some jobExample)) = .ok (some jobExample) :=
  (C8_poll_never_raises _).2.1 200 _ rfl rfl

/-- A configuration whose backend URL is missing while every value `main`
actually checks is present. -/
def cfgMissingURL : Config :=
  { PEBBLE_API_URL := "", PEBBLE_AGENT_API_KEY := "key", PEBBLE_COMPANY_ID := "c1",
    GCP_PROJECT_ID := "proj", GCP_REGION := "us-east1", GCP_INSTANCE_NAME := "inst",
    DB_NAME := "db", DB_IAM_USER := "svc@proj.iam", IP_TYPE := "PRIVATE",
    NUM_WORKERS := 2, POLL_INTERVAL := 5, MAX_RESULT_ROWS := 1000,
    MAX_RESULT_BYTES := 262144, HTTP_TIMEOUT := 30, CONNECTION_TIMEOUT := 30 }

/-- C9 counterexample: with the backend URL missing (empty) and everything
else present, `main` does not refuse to start — it proceeds to run the
workers, contradicting the claim that a missing backend URL prevents
startup. -/
theorem C9_counterexample :
    cfgMissingURL.PEBBLE_API_URL = "" ∧
    main_startup cfgMissingURL = .runWorkers 2 := by
  constructor
  · rfl
  · decide

/-- C9 amended: `main` checks exactly seven values — agent key, tenant id,
project, region, instance, database name, IAM user; the backend URL is not
among them. If any checked value is missing it exits with status 1
enumerating precisely the missing ones; with all seven present it runs the
workers. -/
theorem C9_startup_check (c : Config) :
    (missingRequired c ≠ [] → main_startup c = .exitWith 1 (missingRequired c)) ∧
    (missingRequired c = [] → main_startup c = .runWorkers c.NUM_WORKERS) ∧
    (missingRequired c = [] ↔
      (c.PEBBLE_AGENT_API_KEY ≠ "" ∧ c.PEBBLE_COMPANY_ID ≠ "" ∧ c.GCP_PROJECT_ID ≠ "" ∧
       c.GCP_REGION ≠ "" ∧ c.GCP_INSTANCE_NAME ≠ "" ∧ c.DB_NAME ≠ "" ∧
       c.DB_IAM_USER ≠ "")) ∧
    ("PEBBLE_AGENT_API_KEY" ∈ missingRequired c ↔ c.PEBBLE_AGENT_API_KEY = "") ∧
    ("PEBBLE_COMPANY_ID" ∈ missingRequired c ↔ c.PEBBLE_COMPANY_ID = "") ∧
    ("GCP_PROJECT_ID" ∈ missingRequired c ↔ c.GCP_PROJECT_ID = "") ∧
    ("GCP_REGION" ∈ missingRequired c ↔ c.GCP_REGION = "") ∧
    ("GCP_INSTANCE_NAME" ∈ missingRequired c ↔ c.GCP_INSTANCE_NAME = "") ∧
    ("DB_NAME" ∈ missingRequired c ↔ c.DB_NAME = "") ∧
    ("DB_IAM_USER" ∈ missingRequired c ↔ c.DB_IAM_USER = "") := by
  refine ⟨?_, ?_, ?_, ?_, ?_, ?_, ?_, ?_, ?_, ?_⟩
  · intro h
    simp [main_startup, h]
  · intro h
    simp [main_startup, h]
  · simp [missingRequired, List.append_eq_nil, ite_singleton_eq_nil]
  all_goals simp [missingRequired, List.mem_append, mem_ite_singleton]

/-- A fully populated configuration. -/
def cfgComplete : Config :=
  { PEBBLE_API_URL := "https://pebble.example", PEBBLE_AGENT_API_KEY := "key",
    PEBBLE_COMPANY_ID := "c1", GCP_PROJECT_ID := "proj", GCP_REGION := "us-east1",
    GCP_INSTANCE_NAME := "inst", DB_NAME := "db", DB_IAM_USER := "svc@proj.iam",
    IP_TYPE := "PRIVATE", NUM_WORKERS := 2, POLL_INTERVAL := 5,
    MAX_RESULT_ROWS := 1000, MAX_RESULT_BYTES := 262144, HTTP_TIMEOUT := 30,
    CONNECTION_TIMEOUT := 30 }

theorem C9_startup_check_witness :
    main_startup cfgComplete = .runWorkers 2 :=
  (C9_startup_check cfgComplete).2.1 (by decide)

/-- C10: the `database_name` argument of `execute_query` has no effect — two
calls differing only in it are identical — and the connection request always
targets the configured `DB_NAME`. -/
theorem C10_database_name_ignored (c : Config) (maxRows maxBytes : Nat)
    (d1 d2 sql : String) (timeout : Nat) (db : String → List PyRow) :
    execute_query maxRows maxBytes d1 sql timeout db =
      execute_query maxRows maxBytes d2 sql timeout db ∧
    (get_connection_args c).db = c.DB_NAME :=
  ⟨rfl, rfl⟩

end Pebble
